import Mathlib

/-!
Formal model of the crust connection-management layer, shallowly embedding
two Rust modules:

* src/compat/connection_map.rs — the registry (`ConnectionMap`) keyed by peer
  identity, together with the per-connection relay task `handle_peer_rx`;
* src/net/peer/mod.rs — the per-connection liveness state machine (`Peer`),
  a stream/sink pair with heartbeating and inactivity detection.

Modelling conventions:

* `PublicEncryptKey` (the identity), `IpAddr`, ports, priorities and raw
  payload bytes are all embedded as `Nat` / `List Nat`.
* The Rust `HashMap` behind the registry is embedded as an association list
  `List (Nat × _)` with first-match lookup; `insert` conses after erasing the
  key and `remove` filters it out, which coincides with hash-map semantics.
* `Arc<Mutex<Inner>>` becomes explicit state passing: each operation takes
  the registry state and returns the updated state together with its result.
  The `CrustEventSender` is modelled by returning the list of events a call
  emits rather than storing a channel handle in the state.
* `Instant` is a `Nat` (milliseconds); `Instant::now()` becomes an explicit
  `now` argument, treated as constant during a single poll.
-/

/-- Priority tag attached to outbound items (Rust `Priority = u8`). -/
abbrev Priority := Nat

/-- Raw payload bytes (Rust `Vec<u8>` / `Bytes`). -/
abbrev Payload := List Nat

/-- A point in time in milliseconds (Rust `Instant`). -/
abbrev Instant := Nat

/-- Peer kind, Rust enum `CrustUser { Node, Client }`. -/
inductive CrustUser where
  | Node
  | Client
deriving DecidableEq, Repr

/-- Rust `PaAddr`: a network address exposing an `ip()` accessor.
The port is kept so that distinct addresses with one IP exist. -/
structure PaAddr where
  ip : Nat
  port : Nat
deriving DecidableEq, Repr

/-- First-match lookup in an association list, the model of `HashMap::get`. -/
def mapLookup {α : Type} : List (Nat × α) → Nat → Option α
  | [], _ => none
  | (k, v) :: rest, key => if k = key then some v else mapLookup rest key

/-- Model of `HashMap::contains_key`. -/
def mapContains {α : Type} (m : List (Nat × α)) (key : Nat) : Bool :=
  (mapLookup m key).isSome

/-- Model of `HashMap::remove`'s effect on the table: drop the key's entry. -/
def mapErase {α : Type} (m : List (Nat × α)) (key : Nat) : List (Nat × α) :=
  m.filter (fun e => e.1 != key)

/-- Model of `HashMap::insert`'s effect on the table: replace any previous
entry for the key with the new one. -/
def mapInsert {α : Type} (m : List (Nat × α)) (key : Nat) (v : α) : List (Nat × α) :=
  (key, v) :: mapErase m key

/-- The outbound (sink) half of a split `CompatPeer`
(Rust `SplitSink<CompatPeer>`).  `queued` records every item accepted by
`start_send`; `failNext` injects the transport failure the Rust sink may
report (`CompatPeerError`, carried as its display string).  A not-ready
response from this sink is `unreachable!()` in the source and is therefore
not part of the model. -/
structure PeerSink where
  queued : List (Priority × Payload)
  failNext : Option String
deriving DecidableEq, Repr

/-- `SplitSink::start_send` on a `CompatPeer` sink: fail with the injected
transport error, or accept the item. -/
def PeerSink.start_send (s : PeerSink) (item : Priority × Payload) :
    Except String PeerSink :=
  match s.failNext with
  | some e => Except.error e
  | none => Except.ok { s with queued := s.queued ++ [item] }

/-- An already-handshaken `CompatPeer` as `insert_peer` consumes it:
`public_id()`, `kind()`, and the sink half produced by `split()`
(the stream half is drained by the spawned relay task, modelled
separately by `handle_peer_rx`). -/
structure CompatPeer where
  public_id : Nat
  kind : CrustUser
  sink : PeerSink
deriving DecidableEq, Repr

/-- Rust struct `PeerWrapper`: one registry entry.  The `_drop_tx`
drop-notifier is a cancellation handle with no observable pure state and is
omitted from the embedding. -/
structure PeerWrapper where
  addr : PaAddr
  kind : CrustUser
  peer_sink : PeerSink
deriving DecidableEq, Repr

/-- Opaque handle for `UnboundedBiChannel<PubConnectionInfo>`; the registry
only stores and hands back these values, so a numeric tag suffices. -/
abbrev CiChannel := Nat

/-- The state guarded by the registry's mutex (Rust struct `Inner`, minus the
`event_tx` channel handle, which the model replaces by returned event
lists). `ConnectionMap` itself is just a shared handle to this state. -/
structure ConnectionMap where
  map : List (Nat × PeerWrapper)
  ci_channel : List (Nat × CiChannel)
deriving DecidableEq, Repr

/-- Rust `CrustError`, restricted to the variants `connection_map.rs`
produces: `PeerNotFound` and the wrapped sink failure
`CompatPeerError(e.to_string())`. -/
inductive CrustError where
  | PeerNotFound
  | CompatPeerError (e : String)
deriving DecidableEq, Repr

/-- `ConnectionMap::insert_peer`: refuse (returning `false`, with no change
to the registry) when the identity is already present; otherwise store a
fresh `PeerWrapper` under the identity and return `true`.  The spawn of the
relay task over the stream half is modelled separately (`handle_peer_rx`). -/
def ConnectionMap.insert_peer (cm : ConnectionMap) (peer : CompatPeer)
    (addr : PaAddr) : ConnectionMap × Bool :=
  if mapContains cm.map peer.public_id then
    (cm, false)
  else
    ({ cm with
        map := mapInsert cm.map peer.public_id
          { addr := addr, kind := peer.kind, peer_sink := peer.sink } },
      true)

/-- `ConnectionMap::send`: look the peer up (absent ⇒ `PeerNotFound`), then
forward `(priority, msg)` to its stored sink half, wrapping a sink failure
as `CompatPeerError`.  `none` as the second component models `Ok(())`. -/
def ConnectionMap.send (cm : ConnectionMap) (uid : Nat) (msg : Payload)
    (priority : Priority) : ConnectionMap × Option CrustError :=
  match mapLookup cm.map uid with
  | none => (cm, some CrustError.PeerNotFound)
  | some pw =>
    match PeerSink.start_send pw.peer_sink (priority, msg) with
    | Except.error e => (cm, some (CrustError.CompatPeerError e))
    | Except.ok sink2 =>
      ({ cm with map := mapInsert cm.map uid { pw with peer_sink := sink2 } },
        none)

/-- `ConnectionMap::peer_addr`: stored address, or `PeerNotFound`. -/
def ConnectionMap.peer_addr (cm : ConnectionMap) (uid : Nat) :
    Except CrustError PaAddr :=
  match mapLookup cm.map uid with
  | some pw => Except.ok pw.addr
  | none => Except.error CrustError.PeerNotFound

/-- `ConnectionMap::remove`: drop the entry, reporting whether one existed
(`inner.map.remove(uid).is_some()`). -/
def ConnectionMap.remove (cm : ConnectionMap) (uid : Nat) :
    ConnectionMap × Bool :=
  ({ cm with map := mapErase cm.map uid }, mapContains cm.map uid)

/-- `ConnectionMap::contains_peer`. -/
def ConnectionMap.contains_peer (cm : ConnectionMap) (uid : Nat) : Bool :=
  mapContains cm.map uid

/-- `ConnectionMap::whitelist_filter`: retain exactly the entries whose IP
is in the allow-set matching their kind (`HashSet<IpAddr>` embedded as a
list of IPs). -/
def ConnectionMap.whitelist_filter (cm : ConnectionMap)
    (client_ips node_ips : List Nat) : ConnectionMap :=
  { cm with
      map := cm.map.filter (fun e =>
        match e.2.kind with
        | CrustUser.Node => node_ips.contains e.2.addr.ip
        | CrustUser.Client => client_ips.contains e.2.addr.ip) }

/-- `ConnectionMap::clear`: `inner.map.clear()` — the ci-channel table is
not touched. -/
def ConnectionMap.clear (cm : ConnectionMap) : ConnectionMap :=
  { cm with map := [] }

/-- `ConnectionMap::insert_ci_channel`. -/
def ConnectionMap.insert_ci_channel (cm : ConnectionMap) (conn_id : Nat)
    (chann : CiChannel) : ConnectionMap :=
  { cm with ci_channel := mapInsert cm.ci_channel conn_id chann }

/-- `ConnectionMap::get_ci_channel`: `inner.ci_channel.remove(&conn_id)` —
hand the channel back while permanently deleting it from the table. -/
def ConnectionMap.get_ci_channel (cm : ConnectionMap) (conn_id : Nat) :
    ConnectionMap × Option CiChannel :=
  ({ cm with ci_channel := mapErase cm.ci_channel conn_id },
    mapLookup cm.ci_channel conn_id)

/-! ### The liveness state machine: net/peer/mod.rs -/

/-- Inactivity window in milliseconds.  The source has
`INACTIVITY_TIMEOUT_MS = 120_000` in the non-test configuration (the
`cfg(test)` build uses 900_000); the model uses the non-test value. -/
def INACTIVITY_TIMEOUT_MS : Nat := 120000

/-- Heartbeat cadence in milliseconds (non-test value; `cfg(test)` uses
300_000). -/
def HEARTBEAT_PERIOD_MS : Nat := 20000

/-- Rust enum `PeerMessage`: the framed wire unit. -/
inductive PeerMessage where
  | Heartbeat
  | Data (data : Payload)
deriving DecidableEq, Repr

/-- Rust enum `SocketError` (error payloads carried as display strings). -/
inductive SocketError where
  | Io (e : String)
  | Destroyed
  | Deserialisation (e : String)
deriving DecidableEq, Repr

/-- Rust enum `PeerError`. -/
inductive PeerError where
  | Destroyed
  | Io (e : String)
  | Deserialisation (e : String)
  | InactivityTimeout
deriving DecidableEq, Repr

/-- `impl From<SocketError> for PeerError`. -/
def PeerError.ofSocketError : SocketError → PeerError
  | SocketError.Io e => PeerError.Io e
  | SocketError.Destroyed => PeerError.Destroyed
  | SocketError.Deserialisation e => PeerError.Deserialisation e

/-- One observable result of polling the underlying socket stream:
a decoded frame, end-of-stream, or a transport error. -/
inductive SocketIn where
  | frame (m : PeerMessage)
  | eos
  | ioErr (e : SocketError)
deriving DecidableEq, Repr

/-- The underlying `Socket<PeerMessage>`, a framed duplex transport.
`rx` scripts the inbound side: `socket.poll()` consumes its head, and an
empty `rx` means not-ready.  The sink side records accepted outbound items
in `tx`; `txReady`/`txErr` script the next `start_send` response. -/
structure Socket where
  rx : List SocketIn
  tx : List (Priority × PeerMessage)
  txReady : Bool
  txErr : Option SocketError
deriving DecidableEq, Repr

/-- `Socket::start_send`: an error, acceptance (`AsyncSink::Ready`, the item
is enqueued), or not-ready (`AsyncSink::NotReady` echoing the item back). -/
def Socket.start_send (s : Socket) (item : Priority × PeerMessage) :
    Except SocketError (Socket × Option (Priority × PeerMessage)) :=
  match s.txErr with
  | some e => Except.error e
  | none =>
    if s.txReady then Except.ok ({ s with tx := s.tx ++ [item] }, none)
    else Except.ok (s, some item)

/-- `let _ = self.socket.start_send(..)`: the best-effort send used for
heartbeats, whose result is discarded. -/
def Socket.start_send_ignore (s : Socket) (item : Priority × PeerMessage) :
    Socket :=
  match Socket.start_send s item with
  | Except.error _ => s
  | Except.ok (s2, _) => s2

/-- A reactor timer (`tokio` `Timeout`): `poll` is ready iff `now` has
reached the deadline; `reset` replaces the deadline. -/
structure Timeout where
  deadline : Instant
deriving DecidableEq, Repr

/-- Rust struct `Peer<UID>` (with `UID` embedded as `Nat`). -/
structure Peer where
  their_uid : Nat
  kind : CrustUser
  socket : Socket
  last_send_time : Instant
  send_heartbeat_timeout : Timeout
  recv_heartbeat_timeout : Timeout
deriving DecidableEq, Repr

/-- One iteration body of the heartbeat loop at the top of `Peer::poll`
(run when `send_heartbeat_timeout.poll()` was ready): reset the timer to
`last_send_time + HEARTBEAT_PERIOD_MS` (using the pre-update
`last_send_time`), and if at least a heartbeat period has passed since the
last send, record `last_send_time = now` and best-effort send a heartbeat
frame. -/
def heartbeatStep (p : Peer) (now : Instant) : Peer :=
  let p1 := { p with send_heartbeat_timeout :=
    { deadline := p.last_send_time + HEARTBEAT_PERIOD_MS } }
  if HEARTBEAT_PERIOD_MS ≤ now - p1.last_send_time then
    { p1 with
        last_send_time := now,
        socket := Socket.start_send_ignore p1.socket
          (0, PeerMessage.Heartbeat) }
  else p1

/-- The `while let Async::Ready(..) = self.send_heartbeat_timeout.poll()`
drain at the top of `Peer::poll`: keep running `heartbeatStep` while the
timer reports elapsed.  The loop reaches a state whose timer is unelapsed
within three iterations, so the structural `fuel` argument instantiated at
3 reproduces the source's unbounded loop (`heartbeatDrain_fuel_stable`). -/
def heartbeatDrain : Nat → Peer → Instant → Peer
  | 0, p, _ => p
  | fuel + 1, p, now =>
    if p.send_heartbeat_timeout.deadline ≤ now then
      heartbeatDrain fuel (heartbeatStep p now) now
    else p

/-- How the inner `loop { match self.socket.poll() { .. } }` of `Peer::poll`
ended. -/
inductive RecvOutcome where
  | notReady
  | data (d : Payload)
  | eos
  | err (e : SocketError)
deriving DecidableEq, Repr

/-- The inner receive loop of `Peer::poll`: poll the socket until it is
not-ready (`break`), ends, errors, or yields a `Data` frame.  Every frame
(data or heartbeat) resets the inactivity deadline to
`now + INACTIVITY_TIMEOUT_MS`; heartbeats are consumed without being
yielded.  Returns the remaining inbound script, the (possibly reset)
inactivity timer, and how the loop ended. -/
def recvLoop (now : Instant) :
    List SocketIn → Timeout → List SocketIn × Timeout × RecvOutcome
  | [], t => ([], t, RecvOutcome.notReady)
  | SocketIn.ioErr e :: rest, t => (rest, t, RecvOutcome.err e)
  | SocketIn.eos :: rest, t => (rest, t, RecvOutcome.eos)
  | SocketIn.frame m :: rest, _ =>
    let t2 : Timeout := { deadline := now + INACTIVITY_TIMEOUT_MS }
    match m with
    | PeerMessage.Data d => (rest, t2, RecvOutcome.data d)
    | PeerMessage.Heartbeat => recvLoop now rest t2

/-- Result of one `Peer::poll` as a `Stream`:
`Ok(Ready(Some(d)))`, `Ok(Ready(None))`, `Ok(NotReady)`, or `Err(e)`. -/
inductive PollResult where
  | ready (d : Payload)
  | eos
  | notReady
  | err (e : PeerError)
deriving DecidableEq, Repr

/-- `impl Stream for Peer — fn poll`: drain the heartbeat timer, run the
receive loop, and if the loop broke out not-ready check the inactivity
timer, synthesizing `InactivityTimeout` when it has elapsed. -/
def Peer.poll (p : Peer) (now : Instant) : Peer × PollResult :=
  let p1 := heartbeatDrain 3 p now
  let r := recvLoop now p1.socket.rx p1.recv_heartbeat_timeout
  let p2 := { p1 with
    socket := { p1.socket with rx := r.1 },
    recv_heartbeat_timeout := r.2.1 }
  match r.2.2 with
  | RecvOutcome.err e => (p2, PollResult.err (PeerError.ofSocketError e))
  | RecvOutcome.eos => (p2, PollResult.eos)
  | RecvOutcome.data d => (p2, PollResult.ready d)
  | RecvOutcome.notReady =>
    if p2.recv_heartbeat_timeout.deadline ≤ now then
      (p2, PollResult.err PeerError.InactivityTimeout)
    else (p2, PollResult.notReady)

/-- Result of `Sink::start_send`: `AsyncSink::Ready` or
`AsyncSink::NotReady((priority, data))`. -/
inductive StartSendResult where
  | ready
  | notReady (priority : Priority) (data : Payload)
deriving DecidableEq, Repr

/-- `impl Sink for Peer — fn start_send`: wrap the payload as
`PeerMessage::Data` and forward it to the socket.  On acceptance record
`last_send_time = now`; on not-ready hand the original `(priority, data)`
pair back unchanged.  The not-ready-with-non-Data branch is
`unreachable!()` in the source (the socket echoes the item it was given,
which is always a `Data` frame here); the model maps that dead branch to
`PeerError.Destroyed`. -/
def Peer.start_send (p : Peer) (now : Instant) (priority : Priority)
    (data : Payload) : Except PeerError (Peer × StartSendResult) :=
  match Socket.start_send p.socket (priority, PeerMessage.Data data) with
  | Except.error e => Except.error (PeerError.ofSocketError e)
  | Except.ok (s2, none) =>
    Except.ok ({ p with socket := s2, last_send_time := now },
      StartSendResult.ready)
  | Except.ok (s2, some (pr, PeerMessage.Data v)) =>
    Except.ok ({ p with socket := s2 }, StartSendResult.notReady pr v)
  | Except.ok (_, some (_, PeerMessage.Heartbeat)) =>
    Except.error PeerError.Destroyed

/-! ### The relay task: handle_peer_rx -/

/-- Rust enum `Event` (compat layer), restricted to the variants this
module emits. -/
inductive Event where
  | NewMessage (uid : Nat) (kind : CrustUser) (data : Payload)
  | LostPeer (uid : Nat)
deriving DecidableEq, Repr

/-- Why the relay task's stream stopped: the drop-notifier fired
(`until(drop_rx)`), the peer stream ended, it failed with
`InactivityTimeout`, or it failed with any other `CompatPeerError`
(carried as its display string). -/
inductive RxTermination where
  | dropNotice
  | endOfStream
  | inactivityTimeout
  | otherError (e : String)
deriving DecidableEq, Repr

/-- One complete run of the future built by `handle_peer_rx`, given the
payloads the peer stream yielded (`msgs`) and how it stopped (`term`):

* `for_each` sends `NewMessage(uid, kind, msg)` for every payload;
* `map_err` fires on the error path — when the error is
  `InactivityTimeout` it removes the peer and sends `LostPeer(uid)` before
  `log_errors` swallows the error and ends the stream;
* `finally` then runs unconditionally, removing the peer and sending
  `LostPeer(uid)` once more, whatever the termination cause was.

Returns the registry state after the run and the events sent to
`event_tx`, in emission order. -/
def handle_peer_rx (uid : Nat) (kind : CrustUser) (msgs : List Payload)
    (term : RxTermination) (cm : ConnectionMap) :
    ConnectionMap × List Event :=
  let newMessages := msgs.map (fun m => Event.NewMessage uid kind m)
  let step1 : ConnectionMap × List Event :=
    match term with
    | RxTermination.inactivityTimeout =>
      ((ConnectionMap.remove cm uid).1, [Event.LostPeer uid])
    | _ => (cm, [])
  let cmFinal := (ConnectionMap.remove step1.1 uid).1
  (cmFinal, newMessages ++ step1.2 ++ [Event.LostPeer uid])

/-! ### Concrete fixtures used by witnesses and counterexamples -/

/-- An empty registry, as built by `ConnectionMap::new`. -/
def emptyConnectionMap : ConnectionMap :=
  { map := [], ci_channel := [] }

/-- A sample handshaken peer with identity 1. -/
def samplePeer : CompatPeer :=
  { public_id := 1, kind := CrustUser.Client,
    sink := { queued := [], failNext := none } }

/-- A sample address 10.0.0.2:4000 with the IP packed as a single number. -/
def sampleAddr : PaAddr :=
  { ip := 100000002, port := 4000 }

/-- A registry holding exactly the sample peer. -/
def sampleConnectionMap : ConnectionMap :=
  (ConnectionMap.insert_peer emptyConnectionMap samplePeer sampleAddr).1

/-- A peer whose socket has nothing inbound and whose inactivity deadline
has already passed; its heartbeat deadline is far in the future. -/
def timedOutPeer : Peer :=
  { their_uid := 7, kind := CrustUser.Client,
    socket := { rx := [], tx := [], txReady := true, txErr := none },
    last_send_time := 0,
    send_heartbeat_timeout := { deadline := 1000000 },
    recv_heartbeat_timeout := { deadline := 3 } }

/-- A peer with two heartbeats then a data frame queued inbound. -/
def busyPeer : Peer :=
  { their_uid := 7, kind := CrustUser.Client,
    socket :=
      { rx := [SocketIn.frame PeerMessage.Heartbeat,
               SocketIn.frame PeerMessage.Heartbeat,
               SocketIn.frame (PeerMessage.Data [100, 97, 116, 97, 49])],
        tx := [], txReady := true, txErr := none },
    last_send_time := 0,
    send_heartbeat_timeout := { deadline := 1000000 },
    recv_heartbeat_timeout := { deadline := 3 } }

/-- The registry entry `insert_peer` builds for the sample peer. -/
def sampleWrapper : PeerWrapper :=
  { addr := sampleAddr, kind := CrustUser.Client,
    peer_sink := { queued := [], failNext := none } }

/-- Entry A of the spec's whitelist example: a Node at 10.0.0.1. -/
def nodeWrapper : PeerWrapper :=
  { addr := { ip := 100000001, port := 4000 }, kind := CrustUser.Node,
    peer_sink := { queued := [], failNext := none } }

/-- Entry B of the spec's whitelist example: a Client at 10.0.0.2. -/
def clientWrapper : PeerWrapper :=
  { addr := { ip := 100000002, port := 4000 }, kind := CrustUser.Client,
    peer_sink := { queued := [], failNext := none } }

/-- The registry of the spec's whitelist example:
`{A: Node@10.0.0.1, B: Client@10.0.0.2}` with identities 10 and 11. -/
def whitelistFixture : ConnectionMap :=
  { map := [(10, nodeWrapper), (11, clientWrapper)], ci_channel := [] }

/-- A peer whose socket reports not-ready to outbound sends. -/
def backpressuredPeer : Peer :=
  { their_uid := 7, kind := CrustUser.Client,
    socket := { rx := [], tx := [], txReady := false, txErr := none },
    last_send_time := 0,
    send_heartbeat_timeout := { deadline := 1000000 },
    recv_heartbeat_timeout := { deadline := 1000000 } }

/-! ### Association-list lemmas -/

theorem mapLookup_none_of_erase {α : Type} (m : List (Nat × α)) (key : Nat) :
    mapLookup (mapErase m key) key = none := by
  induction m with
  | nil => rfl
  | cons e rest ih =>
    by_cases h : e.1 = key
    · simpa [mapErase, List.filter_cons, h] using ih
    · simpa [mapErase, List.filter_cons, h, mapLookup] using ih

theorem mapErase_of_not_contains {α : Type} (m : List (Nat × α)) (key : Nat)
    (h : mapContains m key = false) : mapErase m key = m := by
  induction m with
  | nil => rfl
  | cons e rest ih =>
    by_cases hk : e.1 = key
    · exfalso
      simp [mapContains, mapLookup, hk] at h
    · have hrest : mapContains rest key = false := by
        simpa [mapContains, mapLookup, hk] using h
      simp only [mapErase, List.filter_cons] at ih ⊢
      simp [hk, ih hrest]

theorem mapLookup_insert_self {α : Type} (m : List (Nat × α)) (key : Nat)
    (v : α) : mapLookup (mapInsert m key v) key = some v := by
  simp [mapInsert, mapLookup]

theorem mapErase_keys_not_mem {α : Type} (m : List (Nat × α)) (key : Nat) :
    key ∉ (mapErase m key).map Prod.fst := by
  intro hmem
  rcases List.mem_map.mp hmem with ⟨e, he, hfst⟩
  have := List.of_mem_filter he
  simp [hfst] at this

theorem mapErase_keys_sublist {α : Type} (m : List (Nat × α)) (key : Nat) :
    ((mapErase m key).map Prod.fst).Sublist (m.map Prod.fst) :=
  (List.filter_sublist m).map Prod.fst

theorem mapInsert_keys_nodup {α : Type} (m : List (Nat × α)) (key : Nat)
    (v : α) (h : (m.map Prod.fst).Nodup) :
    ((mapInsert m key v).map Prod.fst).Nodup := by
  simp only [mapInsert, List.map_cons]
  exact List.Nodup.cons (mapErase_keys_not_mem m key)
    ((mapErase_keys_sublist m key).nodup h)

/-! ### C2: insert_peer -/

/-- C2: `insert_peer` returns false and leaves the registry unchanged when
the identity is already present, and returns true after consing the new
entry otherwise; it preserves the at-most-one-entry-per-identity invariant
(no duplicate keys in the map). -/
theorem insert_peer_spec (cm : ConnectionMap) (peer : CompatPeer)
    (addr : PaAddr) :
    (ConnectionMap.contains_peer cm peer.public_id = true →
      ConnectionMap.insert_peer cm peer addr = (cm, false))
    ∧ (ConnectionMap.contains_peer cm peer.public_id = false →
      ConnectionMap.insert_peer cm peer addr =
        ({ cm with map := (peer.public_id,
            { addr := addr, kind := peer.kind, peer_sink := peer.sink })
              :: cm.map }, true))
    ∧ ((cm.map.map Prod.fst).Nodup →
      ((ConnectionMap.insert_peer cm peer addr).1.map.map Prod.fst).Nodup) := by
  refine ⟨?_, ?_, ?_⟩
  · intro h
    simp only [ConnectionMap.contains_peer] at h
    simp [ConnectionMap.insert_peer, h]
  · intro h
    simp only [ConnectionMap.contains_peer] at h
    simp [ConnectionMap.insert_peer, h, mapInsert,
      mapErase_of_not_contains cm.map peer.public_id h]
  · intro h
    by_cases hc : mapContains cm.map peer.public_id
    · simpa [ConnectionMap.insert_peer, hc] using h
    · simp only [ConnectionMap.insert_peer, Bool.not_eq_true] at hc ⊢
      simp only [hc]
      simpa using mapInsert_keys_nodup cm.map peer.public_id _ h

/-- C2 witness: inserting the sample peer into a registry already holding
it fails with no state change; inserting it into the empty registry
succeeds. -/
theorem insert_peer_spec_witness :
    ConnectionMap.insert_peer sampleConnectionMap samplePeer sampleAddr =
      (sampleConnectionMap, false) ∧
    (ConnectionMap.insert_peer emptyConnectionMap samplePeer sampleAddr).2 =
      true := by
  refine ⟨(insert_peer_spec sampleConnectionMap samplePeer sampleAddr).1
    (by decide), ?_⟩
  rw [(insert_peer_spec emptyConnectionMap samplePeer sampleAddr).2.1
    (by decide)]

/-! ### C6: remove -/

/-- C6: `remove` reports exactly whether an entry existed; removing an
absent identity is a no-op returning false; removing a present identity
twice yields true then false. -/
theorem remove_idempotent_spec (cm : ConnectionMap) (uid : Nat) :
    ((ConnectionMap.remove cm uid).2 = ConnectionMap.contains_peer cm uid)
    ∧ (ConnectionMap.contains_peer cm uid = false →
      ConnectionMap.remove cm uid = (cm, false))
    ∧ (ConnectionMap.contains_peer cm uid = true →
      (ConnectionMap.remove cm uid).2 = true ∧
      (ConnectionMap.remove (ConnectionMap.remove cm uid).1 uid).2 = false) := by
  refine ⟨rfl, ?_, ?_⟩
  · intro h
    simp only [ConnectionMap.contains_peer] at h
    simp [ConnectionMap.remove, h, mapErase_of_not_contains cm.map uid h]
  · intro h
    simp only [ConnectionMap.contains_peer] at h
    exact ⟨h, by
      simp [ConnectionMap.remove, mapContains, mapLookup_none_of_erase]⟩

/-- C6 witness: removing an absent identity from the empty registry is a
no-op returning false; removing the sample peer yields true then false. -/
theorem remove_idempotent_spec_witness :
    ConnectionMap.remove emptyConnectionMap 5 = (emptyConnectionMap, false) ∧
    (ConnectionMap.remove sampleConnectionMap 1).2 = true ∧
    (ConnectionMap.remove (ConnectionMap.remove sampleConnectionMap 1).1 1).2 =
      false :=
  ⟨(remove_idempotent_spec emptyConnectionMap 5).2.1 (by decide),
    ((remove_idempotent_spec sampleConnectionMap 1).2.2 (by decide)).1,
    ((remove_idempotent_spec sampleConnectionMap 1).2.2 (by decide)).2⟩

/-! ### C7: whitelist_filter -/

/-- C7: after `whitelist_filter`, an entry is in the map exactly when it
was there before and its IP lies in the allow-set matching its kind. -/
theorem whitelist_filter_spec (cm : ConnectionMap)
    (client_ips node_ips : List Nat) (uid : Nat) (pw : PeerWrapper) :
    (uid, pw) ∈ (ConnectionMap.whitelist_filter cm client_ips node_ips).map ↔
      ((uid, pw) ∈ cm.map ∧
        (match pw.kind with
          | CrustUser.Node => node_ips.contains pw.addr.ip
          | CrustUser.Client => client_ips.contains pw.addr.ip) = true) := by
  simp [ConnectionMap.whitelist_filter, List.mem_filter]

/-- C7 witness: the spec's example — with client allow-set {10.0.0.2} and
empty node allow-set, the Node entry is removed and the Client entry
retained. -/
theorem whitelist_filter_spec_witness :
    (11, clientWrapper) ∈
      (ConnectionMap.whitelist_filter whitelistFixture [100000002] []).map ∧
    (10, nodeWrapper) ∉
      (ConnectionMap.whitelist_filter whitelistFixture [100000002] []).map := by
  refine ⟨(whitelist_filter_spec whitelistFixture [100000002] [] 11
    clientWrapper).mpr (by decide), fun hmem => ?_⟩
  have h := (whitelist_filter_spec whitelistFixture [100000002] [] 10
    nodeWrapper).mp hmem
  simp [nodeWrapper] at h

/-! ### C8: send and peer_addr -/

/-- C8: `send` and `peer_addr` fail with `PeerNotFound` exactly when the
identity is absent; on a present identity `peer_addr` returns the stored
address, and `send` (when the sink does not fail) succeeds and appends the
payload to the stored outbound half. -/
theorem send_peer_addr_not_found_iff (cm : ConnectionMap) (uid : Nat)
    (msg : Payload) (priority : Priority) :
    (((ConnectionMap.send cm uid msg priority).2 =
        some CrustError.PeerNotFound) ↔
      ConnectionMap.contains_peer cm uid = false)
    ∧ ((ConnectionMap.peer_addr cm uid =
        Except.error CrustError.PeerNotFound) ↔
      ConnectionMap.contains_peer cm uid = false)
    ∧ (∀ pw, mapLookup cm.map uid = some pw →
      ConnectionMap.peer_addr cm uid = Except.ok pw.addr ∧
      (pw.peer_sink.failNext = none →
        (ConnectionMap.send cm uid msg priority).2 = none ∧
        mapLookup (ConnectionMap.send cm uid msg priority).1.map uid =
          some { pw with peer_sink := { pw.peer_sink with
            queued := pw.peer_sink.queued ++ [(priority, msg)] } })) := by
  refine ⟨?_, ?_, ?_⟩
  · cases h : mapLookup cm.map uid with
    | none =>
      simp [ConnectionMap.send, ConnectionMap.contains_peer, mapContains, h]
    | some pw =>
      cases hf : pw.peer_sink.failNext with
      | none =>
        simp [ConnectionMap.send, ConnectionMap.contains_peer, mapContains,
          h, PeerSink.start_send, hf]
      | some e =>
        simp [ConnectionMap.send, ConnectionMap.contains_peer, mapContains,
          h, PeerSink.start_send, hf]
  · cases h : mapLookup cm.map uid with
    | none =>
      simp [ConnectionMap.peer_addr, ConnectionMap.contains_peer,
        mapContains, h]
    | some pw =>
      simp [ConnectionMap.peer_addr, ConnectionMap.contains_peer,
        mapContains, h]
  · intro pw h
    refine ⟨by simp [ConnectionMap.peer_addr, h], fun hf => ?_⟩
    refine ⟨by simp [ConnectionMap.send, h, PeerSink.start_send, hf], ?_⟩
    simp [ConnectionMap.send, h, PeerSink.start_send, hf,
      mapLookup_insert_self]

/-- C8 witness: on the empty registry `send` fails with `PeerNotFound`;
on the sample registry `peer_addr` returns the stored address and `send`
succeeds. -/
theorem send_peer_addr_not_found_iff_witness :
    (ConnectionMap.send emptyConnectionMap 1 [1, 2] 0).2 =
      some CrustError.PeerNotFound ∧
    ConnectionMap.peer_addr sampleConnectionMap 1 = Except.ok sampleAddr ∧
    (ConnectionMap.send sampleConnectionMap 1 [1, 2] 0).2 = none := by
  have h := (send_peer_addr_not_found_iff sampleConnectionMap 1 [1, 2] 0).2.2
    sampleWrapper (by decide)
  exact ⟨(send_peer_addr_not_found_iff emptyConnectionMap 1 [1, 2] 0).1.mpr
    (by decide), h.1, (h.2 (by decide)).1⟩

/-! ### C9: get_ci_channel -/

/-- C9: `get_ci_channel` hands back exactly the stored channel while
removing it, so a second retrieval with the same id returns `none`, and a
retrieval right after `insert_ci_channel` returns the stored channel. -/
theorem get_ci_channel_single_consumption (cm : ConnectionMap)
    (conn_id : Nat) (chann : CiChannel) :
    ((ConnectionMap.get_ci_channel cm conn_id).2 =
      mapLookup cm.ci_channel conn_id)
    ∧ ((ConnectionMap.get_ci_channel
        (ConnectionMap.get_ci_channel cm conn_id).1 conn_id).2 = none)
    ∧ ((ConnectionMap.get_ci_channel
        (ConnectionMap.insert_ci_channel cm conn_id chann) conn_id).2 =
      some chann) :=
  ⟨rfl, mapLookup_none_of_erase cm.ci_channel conn_id,
    mapLookup_insert_self cm.ci_channel conn_id chann⟩

/-! ### C10: clear -/

/-- C10: `clear` empties the identity map but leaves the ci-channel table
untouched, so `get_ci_channel` returns the same channel after `clear` as
before. -/
theorem clear_preserves_ci_channel (cm : ConnectionMap) (conn_id : Nat) :
    (ConnectionMap.clear cm).map = []
    ∧ (ConnectionMap.clear cm).ci_channel = cm.ci_channel
    ∧ ((ConnectionMap.get_ci_channel (ConnectionMap.clear cm) conn_id).2 =
      (ConnectionMap.get_ci_channel cm conn_id).2) :=
  ⟨rfl, rfl, rfl⟩

/-! ### Peer lemmas -/

theorem Socket.start_send_ignore_rx (s : Socket)
    (item : Priority × PeerMessage) :
    (Socket.start_send_ignore s item).rx = s.rx := by
  unfold Socket.start_send_ignore Socket.start_send
  cases h : s.txErr with
  | some e => rfl
  | none => by_cases h2 : s.txReady <;> simp [h2]

theorem heartbeatStep_rx (p : Peer) (now : Instant) :
    (heartbeatStep p now).socket.rx = p.socket.rx := by
  simp only [heartbeatStep]
  split <;> simp [Socket.start_send_ignore_rx]

theorem heartbeatStep_recv_timeout (p : Peer) (now : Instant) :
    (heartbeatStep p now).recv_heartbeat_timeout =
      p.recv_heartbeat_timeout := by
  simp only [heartbeatStep]
  split <;> rfl

theorem heartbeatStep_send_deadline (p : Peer) (now : Instant) :
    (heartbeatStep p now).send_heartbeat_timeout.deadline =
      p.last_send_time + HEARTBEAT_PERIOD_MS := by
  simp only [heartbeatStep]
  split <;> rfl

theorem heartbeatDrain_rx (n : Nat) : ∀ (p : Peer) (now : Instant),
    (heartbeatDrain n p now).socket.rx = p.socket.rx := by
  induction n with
  | zero => intro p now; rfl
  | succ n ih =>
    intro p now
    simp only [heartbeatDrain]
    split
    · rw [ih, heartbeatStep_rx]
    · rfl

theorem heartbeatDrain_recv_timeout (n : Nat) : ∀ (p : Peer) (now : Instant),
    (heartbeatDrain n p now).recv_heartbeat_timeout =
      p.recv_heartbeat_timeout := by
  induction n with
  | zero => intro p now; rfl
  | succ n ih =>
    intro p now
    simp only [heartbeatDrain]
    split
    · rw [ih, heartbeatStep_recv_timeout]
    · rfl

theorem heartbeatDrain_stop (p : Peer) (now : Instant)
    (h : ¬ p.send_heartbeat_timeout.deadline ≤ now) (n : Nat) :
    heartbeatDrain (n + 1) p now = p := by
  simp only [heartbeatDrain]
  rw [if_neg h]

theorem heartbeatDrain_step (p : Peer) (now : Instant) (n : Nat)
    (h : p.send_heartbeat_timeout.deadline ≤ now) :
    heartbeatDrain (n + 1) p now =
      heartbeatDrain n (heartbeatStep p now) now := by
  conv_lhs => rw [heartbeatDrain]
  rw [if_pos h]

/-- Three iterations reach the heartbeat loop's fixed point: giving the
drain any extra fuel changes nothing, so `heartbeatDrain 3` is exactly the
source's unbounded `while` loop. -/
theorem heartbeatDrain_fuel_stable (p : Peer) (now : Instant) (k : Nat) :
    heartbeatDrain (k + 3) p now = heartbeatDrain 3 p now := by
  have hP : 0 < HEARTBEAT_PERIOD_MS := by decide
  by_cases h1 : p.send_heartbeat_timeout.deadline ≤ now
  · rw [heartbeatDrain_step p now (k + 2) h1, heartbeatDrain_step p now 2 h1]
    by_cases h2 : (heartbeatStep p now).send_heartbeat_timeout.deadline ≤ now
    · rw [heartbeatDrain_step _ now (k + 1) h2,
        heartbeatDrain_step _ now 1 h2]
      have hcond : HEARTBEAT_PERIOD_MS ≤ now - p.last_send_time := by
        rw [heartbeatStep_send_deadline] at h2
        exact Nat.le_sub_of_add_le (by rw [Nat.add_comm]; exact h2)
      have hlast : (heartbeatStep p now).last_send_time = now := by
        simp [heartbeatStep, hcond]
      have h3 : ¬ (heartbeatStep (heartbeatStep p now)
          now).send_heartbeat_timeout.deadline ≤ now := by
        rw [heartbeatStep_send_deadline, hlast]
        exact Nat.not_le.mpr (Nat.lt_add_of_pos_right hP)
      rw [heartbeatDrain_stop _ now h3 k, heartbeatDrain_stop _ now h3 0]
    · rw [heartbeatDrain_stop _ now h2 (k + 1),
        heartbeatDrain_stop _ now h2 1]
  · rw [heartbeatDrain_stop p now h1 (k + 2), heartbeatDrain_stop p now h1 2]

theorem recvLoop_notReady_nil (now : Instant) :
    ∀ (rx : List SocketIn) (t : Timeout),
      (recvLoop now rx t).2.2 = RecvOutcome.notReady →
      (recvLoop now rx t).1 = [] := by
  intro rx
  induction rx with
  | nil => intro t _; rfl
  | cons head rest ih =>
    intro t h
    cases head with
    | frame m =>
      cases m with
      | Heartbeat =>
        simp only [recvLoop] at h ⊢
        exact ih _ h
      | Data d => simp [recvLoop] at h
    | eos => simp [recvLoop] at h
    | ioErr e => simp [recvLoop] at h

theorem PeerError.ofSocketError_ne_inactivity (e : SocketError) :
    PeerError.ofSocketError e ≠ PeerError.InactivityTimeout := by
  cases e <;> simp [PeerError.ofSocketError]

theorem recvLoop_replicate_heartbeat (now : Instant) :
    ∀ (k : Nat) (l : List SocketIn) (t : Timeout),
      recvLoop now
        (List.replicate (k + 1) (SocketIn.frame PeerMessage.Heartbeat) ++ l)
        t =
      recvLoop now l { deadline := now + INACTIVITY_TIMEOUT_MS } := by
  intro k
  induction k with
  | zero => intro l t; simp [recvLoop]
  | succ k ih =>
    intro l t
    have : List.replicate (k + 2) (SocketIn.frame PeerMessage.Heartbeat) =
        SocketIn.frame PeerMessage.Heartbeat ::
          List.replicate (k + 1) (SocketIn.frame PeerMessage.Heartbeat) := rfl
    rw [this, List.cons_append]
    simp only [recvLoop]
    exact ih l { deadline := now + INACTIVITY_TIMEOUT_MS }

/-! ### C3: InactivityTimeout synthesis -/

/-- C3: a poll of the peer stream fails with `InactivityTimeout` exactly
when the inner receive loop broke out not-ready (no data item, no
end-of-stream) and the — possibly just reset — inactivity deadline has
elapsed; once it has failed this way, any later poll (with nothing new on
the socket) fails the same way and can never produce an item. -/
theorem peer_poll_inactivity_timeout_iff (p : Peer) (now : Instant) :
    (((Peer.poll p now).2 = PollResult.err PeerError.InactivityTimeout) ↔
      ((recvLoop now p.socket.rx p.recv_heartbeat_timeout).2.2 =
          RecvOutcome.notReady ∧
        (recvLoop now p.socket.rx p.recv_heartbeat_timeout).2.1.deadline ≤
          now))
    ∧ (∀ now2, now ≤ now2 →
      (Peer.poll p now).2 = PollResult.err PeerError.InactivityTimeout →
      (Peer.poll (Peer.poll p now).1 now2).2 =
        PollResult.err PeerError.InactivityTimeout) := by
  have hrx := heartbeatDrain_rx 3 p now
  have ht := heartbeatDrain_recv_timeout 3 p now
  have hiff : ((Peer.poll p now).2 =
      PollResult.err PeerError.InactivityTimeout) ↔
      ((recvLoop now p.socket.rx p.recv_heartbeat_timeout).2.2 =
          RecvOutcome.notReady ∧
        (recvLoop now p.socket.rx p.recv_heartbeat_timeout).2.1.deadline ≤
          now) := by
    rcases hout : (recvLoop now p.socket.rx p.recv_heartbeat_timeout).2.2 with
      _ | d | _ | e
    · by_cases hdl :
        (recvLoop now p.socket.rx p.recv_heartbeat_timeout).2.1.deadline ≤ now
      · simp [Peer.poll, hrx, ht, hout, hdl]
      · simp [Peer.poll, hrx, ht, hout, hdl]
    · simp [Peer.poll, hrx, ht, hout]
    · simp [Peer.poll, hrx, ht, hout]
    · simp [Peer.poll, hrx, ht, hout,
        PeerError.ofSocketError_ne_inactivity e]
  refine ⟨hiff, ?_⟩
  intro now2 h12 herr
  obtain ⟨hout, hdl⟩ := hiff.mp herr
  have hnil : (recvLoop now p.socket.rx p.recv_heartbeat_timeout).1 = [] :=
    recvLoop_notReady_nil now p.socket.rx p.recv_heartbeat_timeout hout
  generalize hq : (Peer.poll p now).1 = q
  have hp1 : q.socket.rx = [] ∧
      q.recv_heartbeat_timeout =
        (recvLoop now p.socket.rx p.recv_heartbeat_timeout).2.1 := by
    rw [← hq]
    constructor <;> simp [Peer.poll, hrx, ht, hout, hdl, hnil]
  have hrxq := heartbeatDrain_rx 3 q now2
  have htq := heartbeatDrain_recv_timeout 3 q now2
  rw [hp1.1] at hrxq
  rw [hp1.2] at htq
  have hdlq : (heartbeatDrain 3 q
      now2).recv_heartbeat_timeout.deadline ≤ now2 := by
    rw [htq]; exact le_trans hdl h12
  simp [Peer.poll, hrxq, recvLoop, hdlq]

/-- C3 witness: a peer with an idle socket and an elapsed inactivity
deadline fails with `InactivityTimeout` at time 5 and again at time 9. -/
theorem peer_poll_inactivity_timeout_iff_witness :
    (Peer.poll timedOutPeer 5).2 =
      PollResult.err PeerError.InactivityTimeout ∧
    (Peer.poll (Peer.poll timedOutPeer 5).1 9).2 =
      PollResult.err PeerError.InactivityTimeout := by
  have h := peer_poll_inactivity_timeout_iff timedOutPeer 5
  have h1 : (Peer.poll timedOutPeer 5).2 =
      PollResult.err PeerError.InactivityTimeout :=
    h.1.mpr (by decide)
  exact ⟨h1, h.2 9 (by decide) h1⟩

/-! ### C4: heartbeat transparency -/

/-- C4: inbound frames (heartbeats included) reset the inactivity deadline
to `now + INACTIVITY_TIMEOUT_MS`, but heartbeats are never yielded: a poll
over any run of heartbeats followed by a data frame yields exactly that
payload (and only it), while a poll over heartbeats alone yields no item at
all, reporting not-ready with the deadline freshly reset. -/
theorem peer_poll_heartbeat_transparency (p : Peer) (now : Instant) :
    (∀ k d rest,
      p.socket.rx =
        List.replicate k (SocketIn.frame PeerMessage.Heartbeat) ++
          SocketIn.frame (PeerMessage.Data d) :: rest →
      (Peer.poll p now).2 = PollResult.ready d ∧
      (Peer.poll p now).1.socket.rx = rest ∧
      (Peer.poll p now).1.recv_heartbeat_timeout.deadline =
        now + INACTIVITY_TIMEOUT_MS)
    ∧ (∀ k, 0 < k →
      p.socket.rx = List.replicate k (SocketIn.frame PeerMessage.Heartbeat) →
      (Peer.poll p now).2 = PollResult.notReady ∧
      (Peer.poll p now).1.recv_heartbeat_timeout.deadline =
        now + INACTIVITY_TIMEOUT_MS) := by
  have hrx := heartbeatDrain_rx 3 p now
  have ht := heartbeatDrain_recv_timeout 3 p now
  constructor
  · intro k d rest h
    have hr : recvLoop now p.socket.rx p.recv_heartbeat_timeout =
        (rest, { deadline := now + INACTIVITY_TIMEOUT_MS },
          RecvOutcome.data d) := by
      cases k with
      | zero => rw [h]; simp [recvLoop]
      | succ j =>
        rw [h, recvLoop_replicate_heartbeat now j
          (SocketIn.frame (PeerMessage.Data d) :: rest)
          p.recv_heartbeat_timeout]
        simp [recvLoop]
    refine ⟨?_, ?_, ?_⟩ <;> simp [Peer.poll, hrx, ht, hr]
  · intro k hk h
    obtain ⟨j, rfl⟩ : ∃ j, k = j + 1 :=
      ⟨k - 1, (Nat.succ_pred_eq_of_pos hk).symm⟩
    have hr : recvLoop now p.socket.rx p.recv_heartbeat_timeout =
        ([], { deadline := now + INACTIVITY_TIMEOUT_MS },
          RecvOutcome.notReady) := by
      rw [h, ← List.append_nil
        (List.replicate (j + 1) (SocketIn.frame PeerMessage.Heartbeat)),
        recvLoop_replicate_heartbeat now j [] p.recv_heartbeat_timeout]
      simp [recvLoop]
    have hlt : ¬ (now + INACTIVITY_TIMEOUT_MS ≤ now) := by
      simp [INACTIVITY_TIMEOUT_MS]
    constructor <;> simp [Peer.poll, hrx, ht, hr, hlt]

/-- C4 witness: polling a peer with two queued heartbeats and then the
data frame "data1" yields exactly that payload and resets the inactivity
deadline. -/
theorem peer_poll_heartbeat_transparency_witness :
    (Peer.poll busyPeer 10).2 = PollResult.ready [100, 97, 116, 97, 49] ∧
    (Peer.poll busyPeer 10).1.recv_heartbeat_timeout.deadline =
      10 + INACTIVITY_TIMEOUT_MS := by
  have h := (peer_poll_heartbeat_transparency busyPeer 10).1 2
    [100, 97, 116, 97, 49] [] (by decide)
  exact ⟨h.1, h.2.2⟩

/-! ### C5: sink start_send -/

/-- C5: the sink side wraps the payload as a `Data` frame and forwards it;
when the socket accepts, the item lands in the socket's outbound queue and
`last_send_time` becomes `now`; when the socket is not-ready, the original
`(priority, data)` pair is returned unchanged and the peer state is
untouched. -/
theorem peer_start_send_spec (p : Peer) (now : Instant) (priority : Priority)
    (data : Payload) (h : p.socket.txErr = none) :
    (p.socket.txReady = true →
      Peer.start_send p now priority data =
        Except.ok ({ p with
          socket := { p.socket with
            tx := p.socket.tx ++ [(priority, PeerMessage.Data data)] },
          last_send_time := now }, StartSendResult.ready))
    ∧ (p.socket.txReady = false →
      Peer.start_send p now priority data =
        Except.ok (p, StartSendResult.notReady priority data)) := by
  constructor <;> intro h2 <;>
    simp [Peer.start_send, Socket.start_send, h, h2]

/-- C5 witness: an accepted send enqueues the `Data` frame and stamps
`last_send_time`; a backpressured send hands `(2, [9])` back unchanged. -/
theorem peer_start_send_spec_witness :
    Peer.start_send timedOutPeer 4 2 [9] =
      Except.ok ({ timedOutPeer with
        socket := { timedOutPeer.socket with
          tx := timedOutPeer.socket.tx ++ [(2, PeerMessage.Data [9])] },
        last_send_time := 4 }, StartSendResult.ready) ∧
    Peer.start_send backpressuredPeer 4 2 [9] =
      Except.ok (backpressuredPeer, StartSendResult.notReady 2 [9]) :=
  ⟨(peer_start_send_spec timedOutPeer 4 2 [9] (by decide)).1 (by decide),
    (peer_start_send_spec backpressuredPeer 4 2 [9] (by decide)).2
      (by decide)⟩

/-! ### C1: LostPeer emission -/

/-- C1 counterexample: a connection inserted into the registry whose stream
then fails with `InactivityTimeout` causes the event sink to receive
`LostPeer` twice — once from the `map_err` inactivity handler and once from
the unconditional finalization — refuting "exactly one ... never more than
one, regardless of which termination path ran". -/
theorem handle_peer_rx_double_lost_peer_on_inactivity :
    (handle_peer_rx 1 CrustUser.Client [] RxTermination.inactivityTimeout
      sampleConnectionMap).2.count (Event.LostPeer 1) = 2 ∧
    ¬ ((handle_peer_rx 1 CrustUser.Client [] RxTermination.inactivityTimeout
      sampleConnectionMap).2.count (Event.LostPeer 1) = 1) := by
  decide

/-- C1 as amended: one relay-task run emits `LostPeer(uid)` exactly once
when the stream terminates by drop-notifier, end-of-stream, or a
non-inactivity error, and exactly twice when it fails with
`InactivityTimeout`; in every case the entry is gone from the registry
afterwards. -/
theorem handle_peer_rx_lost_peer_count (uid : Nat) (kind : CrustUser)
    (msgs : List Payload) (term : RxTermination) (cm : ConnectionMap) :
    ((handle_peer_rx uid kind msgs term cm).2.count (Event.LostPeer uid) =
      if term = RxTermination.inactivityTimeout then 2 else 1)
    ∧ ConnectionMap.contains_peer (handle_peer_rx uid kind msgs term cm).1
        uid = false := by
  have h0 : (msgs.map (fun m => Event.NewMessage uid kind m)).count
      (Event.LostPeer uid) = 0 := by
    apply List.count_eq_zero.mpr
    simp
  constructor
  · cases term <;>
      simp [handle_peer_rx, List.count_append, h0, List.count_cons]
  · cases term <;>
      simp [handle_peer_rx, ConnectionMap.contains_peer,
        ConnectionMap.remove, mapContains, mapLookup_none_of_erase]
